import Mathlib

/-!
Shallow embedding of the link-extraction and metadata-enrichment pipeline of
`src/main.py` (FastAPI backend).  Strings are modelled as `List Char` at the
core, with `String` wrappers matching the Python function boundaries.
External HTTP traffic is modelled by explicit parameters: the page fetch is an
`Option String` (`none` = any fetch failure, including non-2xx) and the
metadata API is a function `String → ApiResult` from video id to response;
each resolver result is paired with the number of outbound API calls made.
Timestamps (`datetime.now`) are an abstract `Nat` parameter `now`; the manual
retention percentage (a Python float that is only passed through, never
computed with) is modelled as `Rat`.  Response-schema coercion by
pydantic/FastAPI is out of scope per the spec.
-/

namespace Scriptwriter

/-- `\w` or `-`, the character class `[\w-]` of the video-id regexes
(ASCII range; the URLs involved are ASCII). -/
def isWordDash (c : Char) : Bool := c.isAlphanum || c = '_' || c = '-'

/-- Prefix test on character lists (literal-or-fail step of the regex
matcher). -/
def isPre : List Char → List Char → Bool
  | [], _ => true
  | _ :: _, [] => false
  | a :: as, b :: bs => a == b && isPre as bs

/-- `re.search(lit ++ "([\w-]{n,})", s)` for a literal `lit`: scan for the
leftmost position where `lit` occurs followed by at least `n` word/dash
characters; return the greedy capture group. -/
def searchLit (lit : List Char) (n : Nat) : List Char → Option (List Char)
  | [] => none
  | c :: cs =>
    if isPre lit (c :: cs) then
      let run := ((c :: cs).drop lit.length).takeWhile isWordDash
      if n ≤ run.length then some run else searchLit lit n cs
    else searchLit lit n cs

/-- The literal part of `re.search(r"youtu\.be/([\w-]{6,})", url)`. -/
def ytShortLit : List Char := "youtu.be/".data

/-- The literal part of `re.search(r"v=([\w-]{6,})", url)`. -/
def vParamLit : List Char := "v=".data

/-- The literal part of `re.search(r"/embed/([\w-]{6,})", url)`. -/
def embedLit : List Char := "/embed/".data

/-- `extract_youtube_id` (src/main.py lines 93-107) at the character-list
level: try the three regexes in order, return the first capture. -/
def extractIdL (url : List Char) : Option (List Char) :=
  match searchLit ytShortLit 6 url with
  | some r => some r
  | none =>
    match searchLit vParamLit 6 url with
    | some r => some r
    | none => searchLit embedLit 6 url

/-- `extract_youtube_id(url)` on `String`s. -/
def extract_youtube_id (url : String) : Option String :=
  (extractIdL url.data).map (fun l => String.mk l)

/-- Consume an exact literal prefix, returning the remainder. -/
def stripLit : List Char → List Char → Option (List Char)
  | [], s => some s
  | _ :: _, [] => none
  | a :: as, b :: bs => if a = b then stripLit as bs else none

/-- Attempt to match the regex `href="(https?:\\/\\/[^\"]+)"` at the start of
`s` (the regex requires the URL's slashes to be backslash-escaped, as in the
JSON embedded in the fetched page): the literal `href="http`, an optional
`s`, the escaped `:\/\/`, then a greedy nonempty run of non-quote characters
closed by `"`.  On success, return the capture group and the remainder of
the text after the closing quote. -/
def matchHrefAt (s : List Char) : Option (List Char × List Char) :=
  match stripLit "href=\"http".data s with
  | none => none
  | some rest =>
    let sOpt : List Char := if rest.head? = some 's' then ['s'] else []
    match stripLit (sOpt ++ ":\\/\\/".data) rest with
    | none => none
    | some rest3 =>
      let run := rest3.takeWhile (fun c => c ≠ '"')
      match rest3.dropWhile (fun c => c ≠ '"') with
      | '"' :: rest5 =>
        if run.isEmpty then none
        else some ("http".data ++ sOpt ++ ":\\/\\/".data ++ run, rest5)
      | _ => none

/-- Fuel-indexed scan for `re.findall` (non-overlapping, left to right).
The fuel is initialised to the text length; every step consumes at least one
character, so the fuel never runs out. -/
def findAllAux : Nat → List Char → List (List Char)
  | 0, _ => []
  | _ + 1, [] => []
  | fuel + 1, c :: cs =>
    match matchHrefAt (c :: cs) with
    | some (cap, rest) => cap :: findAllAux fuel rest
    | none => findAllAux fuel cs

/-- `re.findall(r'href="(https?:\\/\\/[^\"]+)"', html)` (src/main.py line 151). -/
def findAllHrefs (s : List Char) : List (List Char) :=
  findAllAux s.length s

/-- `href.replace("\\/", "/")` (src/main.py line 154): replace each
non-overlapping occurrence of backslash-slash, left to right. -/
def unescapeSlash : List Char → List Char
  | [] => []
  | '\\' :: '/' :: rest => '/' :: unescapeSlash rest
  | c :: rest => c :: unescapeSlash rest

/-- Python's substring containment `needle in hay`. -/
def containsSub (needle : List Char) : List Char → Bool
  | [] => needle.isEmpty
  | c :: cs => isPre needle (c :: cs) || containsSub needle cs

/-- The filter of src/main.py line 155:
`"youtube.com/watch" in href or "youtu.be/" in href`. -/
def isYtLink (l : List Char) : Bool :=
  containsSub "youtube.com/watch".data l || containsSub "youtu.be/".data l

/-- The dedup loop of src/main.py lines 158-163: keep the first occurrence of
each element, tracking the already-seen set. -/
def dedupFS {α : Type} [DecidableEq α] (seen : List α) : List α → List α
  | [] => []
  | x :: xs => if x ∈ seen then dedupFS seen xs else x :: dedupFS (x :: seen) xs

/-- The LinkExtractor stage of `notion_best_work` (src/main.py lines 150-164):
findall, unescape, filter to YouTube shapes, dedup first-seen, truncate to 3. -/
def extractLinksL (html : List Char) : List (List Char) :=
  (dedupFS [] (((findAllHrefs html).map unescapeSlash).filter isYtLink)).take 3

/-- `extractLinksL` at the `String` level. -/
def extractLinks (html : String) : List String :=
  (extractLinksL html.data).map (fun l => String.mk l)

/-- Value of a nonempty all-digit string. -/
def digitsVal (ds : List Char) : Option Nat :=
  if ds.isEmpty then none
  else if ds.all (fun c => c.isDigit) then
    some (ds.foldl (fun a c => a * 10 + (c.toNat - 48)) 0)
  else none

/-- Python `int(s)` on a string: optional surrounding whitespace, optional
sign, a nonempty digit run; anything else raises (here: `none`). -/
def pyInt (s : List Char) : Option Int :=
  let t := ((s.dropWhile (fun c => c.isWhitespace)).reverse.dropWhile
    (fun c => c.isWhitespace)).reverse
  match t with
  | '+' :: ds => (digitsVal ds).map (fun n => (n : Int))
  | '-' :: ds => (digitsVal ds).map (fun n => -(n : Int))
  | ds => (digitsVal ds).map (fun n => (n : Int))

/-- The `snippet` object of a metadata-API item; `thumbHighUrl` models the
chain `snippet.get("thumbnails", {}).get("high", {}).get("url")`. -/
structure Snippet where
  title : Option String
  channelTitle : Option String
  thumbHighUrl : Option String
  publishedAt : Option String
deriving Repr, DecidableEq

/-- The `statistics` object of a metadata-API item. -/
structure Statistics where
  viewCount : Option String
deriving Repr, DecidableEq

/-- One item of the metadata-API response. -/
structure ApiItem where
  snippet : Snippet
  statistics : Statistics
deriving Repr, DecidableEq

/-- The decoded JSON body of a successful metadata-API response. -/
structure ApiResponse where
  items : List ApiItem
deriving Repr, DecidableEq

/-- Outcome of one metadata-API request: a decoded body, or any failure
(network error, timeout, non-2xx, malformed JSON). -/
inductive ApiResult where
  | ok (resp : ApiResponse)
  | failure
deriving Repr, DecidableEq

/-- The dict returned by `get_youtube_details` on success. -/
structure Details where
  title : Option String
  channel : Option String
  thumbnail_url : Option String
  upload_date : Option String
  views : Option Int
deriving Repr, DecidableEq

/-- `get_youtube_details(video_id)` (src/main.py lines 110-136), with the
ambient `YOUTUBE_API_KEY` and the network made explicit.  The second component
counts outbound API calls.  A present, nonempty, non-numeric `viewCount` makes
`int()` raise inside the `try`, so the whole call returns `none`. -/
def get_youtube_details (apiKey : Option String) (videoId : String)
    (api : String → ApiResult) : Option Details × Nat :=
  match apiKey with
  | none => (none, 0)
  | some _ =>
    match api videoId with
    | .failure => (none, 1)
    | .ok resp =>
      match resp.items with
      | [] => (none, 1)
      | item :: _ =>
        match item.statistics.viewCount with
        | none =>
          (some ⟨item.snippet.title, item.snippet.channelTitle,
                 item.snippet.thumbHighUrl, item.snippet.publishedAt, none⟩, 1)
        | some vc =>
          if vc = "" then
            (some ⟨item.snippet.title, item.snippet.channelTitle,
                   item.snippet.thumbHighUrl, item.snippet.publishedAt, none⟩, 1)
          else
            match pyInt vc.data with
            | none => (none, 1)
            | some v =>
              (some ⟨item.snippet.title, item.snippet.channelTitle,
                     item.snippet.thumbHighUrl, item.snippet.publishedAt,
                     some v⟩, 1)

/-- The per-link resolver step of the pipeline (src/main.py lines 168-169):
`details = get_youtube_details(vid) if vid else None`. -/
def resolveMetadata (apiKey : Option String) (vid : Option String)
    (api : String → ApiResult) : Option Details × Nat :=
  match vid with
  | none => (none, 0)
  | some v => get_youtube_details apiKey v api

/-- The `Metric` pydantic model (src/main.py lines 24-28). -/
structure Metric where
  views : Option Int
  avg_retention : Option Rat
  upload_date : Option String
  last_updated : Option Nat
deriving Repr, DecidableEq

/-- The `WorkItem` pydantic model (src/main.py lines 31-37); URL fields are
plain strings because schema validation is out of scope. -/
structure WorkItem where
  title : Option String
  channel : Option String
  youtube_url : Option String
  thumbnail_url : Option String
  outcome : Option String
  metrics : Metric
deriving Repr, DecidableEq

/-- The `WorkItem` built for one extracted link (src/main.py lines 170-182). -/
def assembleItem (link : String) (details : Option Details) (now : Nat) :
    WorkItem where
  title := match details with | some d => d.title | none => some "YouTube Video"
  channel := match details with | some d => d.channel | none => none
  youtube_url := some link
  thumbnail_url := match details with | some d => d.thumbnail_url | none => none
  outcome := none
  metrics :=
    { views := match details with | some d => d.views | none => none
      avg_retention := none
      upload_date := match details with | some d => d.upload_date | none => none
      last_updated := some now }

/-- The three fallback placeholders (src/main.py lines 190-216). -/
def fallbackItems (pageUrl : String) (now : Nat) : List WorkItem :=
  [ { title := some "Case Study Placeholder 1", channel := some "Channel Name",
      youtube_url := some pageUrl, thumbnail_url := none,
      outcome := some "N/A — add manually",
      metrics := ⟨none, none, none, some now⟩ },
    { title := some "Case Study Placeholder 2", channel := some "Channel Name",
      youtube_url := some pageUrl, thumbnail_url := none,
      outcome := some "N/A — add manually",
      metrics := ⟨none, none, none, some now⟩ },
    { title := some "Case Study Placeholder 3", channel := some "Channel Name",
      youtube_url := some pageUrl, thumbnail_url := none,
      outcome := some "N/A — add manually",
      metrics := ⟨none, none, none, some now⟩ } ]

/-- The `/api/notion/best-work` handler `notion_best_work`
(src/main.py lines 141-216).  `fetched` is the page fetch: `none` covers any
exception up to and including `raise_for_status`.  `schemaOk` models the
pydantic validation that the framework (an external collaborator) runs when
each `WorkItem(...)` is constructed inside the handler's blanket `try`:
`false` means the constructor raises `ValidationError` (e.g. a `youtube_url`
that is not a well-formed `HttpUrl`, such as one with an out-of-range port),
which the blanket `except` turns into the placeholder fallback; any invalid
item therefore discards the whole assembled list. -/
def notion_best_work (pageUrl : String) (apiKey : Option String)
    (fetched : Option String) (api : String → ApiResult) (now : Nat)
    (schemaOk : WorkItem → Bool) : List WorkItem :=
  match fetched with
  | none => fallbackItems pageUrl now
  | some html =>
    let results := (extractLinks html).map (fun l =>
      assembleItem l (resolveMetadata apiKey (extract_youtube_id l) api).1 now)
    if results.all schemaOk then
      (if results.isEmpty then fallbackItems pageUrl now else results)
    else fallbackItems pageUrl now

/-- The `/api/youtube/metrics` handler `refresh_metrics`
(src/main.py lines 224-243): `Except` carries the HTTP error status of the
raised `HTTPException`. -/
def refresh_metrics (apiKey : Option String) (api : String → ApiResult)
    (url : String) (manualRet : Option Rat) (now : Nat) :
    Except Nat WorkItem :=
  match extract_youtube_id url with
  | none => .error 400
  | some vid =>
    let details := (get_youtube_details apiKey vid api).1
    .ok
      { title := match details with
                 | some d => d.title
                 | none => some "YouTube Video"
        channel := match details with | some d => d.channel | none => none
        youtube_url := some url
        thumbnail_url := match details with
                         | some d => d.thumbnail_url
                         | none => none
        outcome := none
        metrics :=
          { views := match details with | some d => d.views | none => none
            avg_retention := manualRet
            upload_date := match details with
                           | some d => d.upload_date
                           | none => none
            last_updated := some now } }

/-- `hasShape lit n cs`: `cs` contains an occurrence of the literal `lit`
followed immediately by at least `n` word/dash characters, i.e. the regex
built from `lit` and a `{n,}`-repeated `[\w-]` capture has a match in `cs`. -/
def hasShape (lit : List Char) (n : Nat) (cs : List Char) : Prop :=
  ∃ pre run post, cs = pre ++ lit ++ run ++ post ∧ n ≤ run.length ∧
    ∀ c ∈ run, isWordDash c = true

/-- A page whose YouTube href is written plainly, without escaped slashes. -/
def plainHtml : String := "<a href=\"https://www.youtube.com/watch?v=abcdefg\">watch</a>"

/-- The same page with the JSON-style backslash-escaped slashes the regex
expects. -/
def escapedHtml : String := "<a href=\"https:\\/\\/www.youtube.com\\/watch?v=abcdefg\">watch</a>"

/-- A page carrying two escaped YouTube links (a watch link and a short
link). -/
def pairHtml : String := "<a href=\"https:\\/\\/www.youtube.com\\/watch?v=abcdef1\">a</a><a href=\"https:\\/\\/youtu.be\\/ghijkl2\">b</a>"

/-- A metadata API that has data for video `abcdef1` only. -/
def pairApi : String → ApiResult := fun v =>
  if v = "abcdef1" then
    .ok ⟨[⟨⟨some "Title One", some "Channel One", some "https://img/1.jpg",
            some "2024-01-01T00:00:00Z"⟩, ⟨some "12345"⟩⟩]⟩
  else .failure

/-- A metadata API for which every call fails. -/
def apiDown : String → ApiResult := fun _ => .failure

/-- A metadata API whose item carries a non-numeric `viewCount`. -/
def nonNumericApi : String → ApiResult := fun _ =>
  .ok ⟨[⟨⟨some "T", some "C", some "U", some "D"⟩, ⟨some "12abc"⟩⟩]⟩

/-- A metadata API whose item has snippet fields but no `viewCount`. -/
def viewlessApi : String → ApiResult := fun _ =>
  .ok ⟨[⟨⟨some "T2", some "C2", some "U2", some "D2"⟩, ⟨none⟩⟩]⟩

/-- A schema validator that accepts every item (all URLs arising in the
scenarios it is used in are well-formed). -/
def acceptAll : WorkItem → Bool := fun _ => true

/-- A page whose one escaped href passes the platform filter yet carries an
out-of-range port. -/
def badPortHtml : String := "<a href=\"https:\\/\\/x:999999\\/?youtu.be\\/\">x</a>"

/-- A schema validator reflecting pydantic's `HttpUrl` rule on the one
malformed URL arising from `badPortHtml`: a port above 65535 is rejected, so
the item carrying that URL raises; every other item is accepted. -/
def rejectBadPort : WorkItem → Bool := fun w =>
  decide (w.youtube_url ≠ some "https://x:999999/?youtu.be/")

/-- The shape of a capture of the href regex: `http`, an optional `s`, the
escaped `:\/\/`, and a nonempty quote-free body. -/
def goodCap (cap : List Char) : Prop :=
  ∃ sOpt body, (sOpt = [] ∨ sOpt = ['s']) ∧ body ≠ [] ∧
    (∀ c ∈ body, c ≠ '"') ∧
    cap = 'h' :: 't' :: 't' :: 'p' ::
      (sOpt ++ (':' :: '\\' :: '/' :: '\\' :: '/' :: body))

/-- An `href="..."` attribute block around a capture. -/
def hrefBlock (cap : List Char) : List Char :=
  'h' :: 'r' :: 'e' :: 'f' :: '=' :: '"' :: (cap ++ ['"'])

/-- A text interleaving separator fragments with href blocks and ending in
`tail`; with `h`-free separators and tail this describes an arbitrary page
carrying exactly the given escaped hrefs. -/
def hrefText : List (List Char × List Char) → List Char → List Char
  | [], tail => tail
  | (sep, cap) :: rest, tail => sep ++ (hrefBlock cap ++ hrefText rest tail)

/-- The one escaped watch-link capture used to witness completeness. -/
def watchCap : List Char := "https:\\/\\/www.youtube.com\\/watch?v=abcdefg".data

/-! ## Helper lemmas -/

theorem isPre_eq {l cs : List Char} (h : isPre l cs = true) :
    ∃ rest, cs = l ++ rest := by
  induction l generalizing cs with
  | nil => exact ⟨cs, rfl⟩
  | cons a as ih =>
    cases cs with
    | nil => simp [isPre] at h
    | cons b bs =>
      simp only [isPre, Bool.and_eq_true, beq_iff_eq] at h
      obtain ⟨h1, h2⟩ := h
      obtain ⟨rest, hr⟩ := ih h2
      exact ⟨rest, by simp [h1, hr]⟩

theorem isPre_append_self (l r : List Char) : isPre l (l ++ r) = true := by
  induction l with
  | nil => rfl
  | cons a as ih => simp [isPre, ih]

theorem isPre_cons_ne {a b : Char} (as bs : List Char) (h : a ≠ b) :
    isPre (a :: as) (b :: bs) = false := by
  simp [isPre, h]

theorem searchLit_cons (lit : List Char) (n : Nat) (c : Char) (cs : List Char) :
    searchLit lit n (c :: cs) =
      if isPre lit (c :: cs) then
        (if n ≤ (((c :: cs).drop lit.length).takeWhile isWordDash).length
         then some (((c :: cs).drop lit.length).takeWhile isWordDash)
         else searchLit lit n cs)
      else searchLit lit n cs := rfl

theorem searchLit_step {lit : List Char} {c : Char} {cs : List Char} (n : Nat)
    (h : isPre lit (c :: cs) = false) :
    searchLit lit n (c :: cs) = searchLit lit n cs := by
  rw [searchLit_cons, h]
  simp

theorem searchLit_skip (l0 : Char) (lits : List Char) (n : Nat) (pre : List Char)
    (rest : List Char) (h : l0 ∉ pre) :
    searchLit (l0 :: lits) n (pre ++ rest) = searchLit (l0 :: lits) n rest := by
  induction pre with
  | nil => rfl
  | cons p pre ih =>
    have hne : l0 ≠ p := fun e => h (by simp [e])
    rw [List.cons_append, searchLit_step n (isPre_cons_ne _ _ hne)]
    exact ih (fun hm => h (List.mem_cons_of_mem _ hm))

theorem searchLit_found (l0 : Char) (lits t : List Char) (n : Nat)
    (hw : ∀ c ∈ t, isWordDash c = true) (hn : n ≤ t.length) :
    searchLit (l0 :: lits) n ((l0 :: lits) ++ t) = some t := by
  have hpre : isPre (l0 :: lits) (l0 :: (lits ++ t)) = true :=
    isPre_append_self (l0 :: lits) t
  have hd : (l0 :: (lits ++ t)).drop (l0 :: lits).length = t :=
    List.drop_left (l0 :: lits) t
  have htw : t.takeWhile isWordDash = t := List.takeWhile_eq_self_iff.mpr hw
  rw [List.cons_append, searchLit_cons]
  simp [hpre, hd, htw, hn]

theorem searchLit_none_of_allWord {lit : List Char} (n : Nat) {t : List Char}
    (hw : ∀ c ∈ t, isWordDash c = true)
    (bad : ∃ c ∈ lit, isWordDash c = false) :
    searchLit lit n t = none := by
  induction t with
  | nil => cases lit <;> rfl
  | cons c cs ih =>
    have hp : isPre lit (c :: cs) = false := by
      cases hb : isPre lit (c :: cs) with
      | false => rfl
      | true =>
        obtain ⟨rest, hr⟩ := isPre_eq hb
        obtain ⟨b, hbmem, hbw⟩ := bad
        have hbcs : b ∈ c :: cs := by
          rw [hr]; exact List.mem_append_left rest hbmem
        have := hw b hbcs
        rw [hbw] at this
        exact absurd this (by simp)
    rw [searchLit_step n hp]
    exact ih (fun d hd => hw d (List.mem_cons_of_mem _ hd))

theorem takeWhile_append_all {α : Type} (p : α → Bool) (run post : List α)
    (h : ∀ c ∈ run, p c = true) :
    (run ++ post).takeWhile p = run ++ post.takeWhile p := by
  induction run with
  | nil => rfl
  | cons a as ih =>
    have ha := h a (List.mem_cons_self a as)
    rw [List.cons_append, List.takeWhile_cons, ha]
    simp [ih (fun c hc => h c (List.mem_cons_of_mem _ hc))]

theorem hasShape_of_searchLit {lit : List Char} {n : Nat} {cs r : List Char}
    (h : searchLit lit n cs = some r) : hasShape lit n cs := by
  induction cs with
  | nil => simp [searchLit] at h
  | cons c cs ih =>
    by_cases hp : isPre lit (c :: cs) = true
    · by_cases hn : n ≤ (((c :: cs).drop lit.length).takeWhile isWordDash).length
      · obtain ⟨rest, hr⟩ := isPre_eq hp
        have hdrop : (c :: cs).drop lit.length = rest := by
          rw [hr]; exact List.drop_left lit rest
        refine ⟨[], ((c :: cs).drop lit.length).takeWhile isWordDash,
                ((c :: cs).drop lit.length).dropWhile isWordDash, ?_, hn, ?_⟩
        · rw [hdrop, hr]
          simp [List.takeWhile_append_dropWhile]
        · intro x hx; exact List.mem_takeWhile_imp hx
      · have hrec : searchLit lit n (c :: cs) = searchLit lit n cs := by
          rw [searchLit_cons]
          simp [hp, hn]
        rw [hrec] at h
        obtain ⟨pre, run, post, e, h1, h2⟩ := ih h
        exact ⟨c :: pre, run, post, by simp [e, List.append_assoc], h1, h2⟩
    · have hp' : isPre lit (c :: cs) = false := by
        cases hb : isPre lit (c :: cs) with
        | false => rfl
        | true => exact absurd hb hp
      rw [searchLit_step n hp'] at h
      obtain ⟨pre, run, post, e, h1, h2⟩ := ih h
      exact ⟨c :: pre, run, post, by simp [e, List.append_assoc], h1, h2⟩

theorem searchLit_isSome_of_shape (l0 : Char) (lits : List Char) (n : Nat)
    (pre run post : List Char) (hn : n ≤ run.length)
    (hw : ∀ c ∈ run, isWordDash c = true) :
    (searchLit (l0 :: lits) n (pre ++ (l0 :: lits) ++ run ++ post)).isSome = true := by
  induction pre with
  | nil =>
    have hpre : isPre (l0 :: lits) (l0 :: (lits ++ (run ++ post))) = true :=
      isPre_append_self (l0 :: lits) (run ++ post)
    have hd : (l0 :: (lits ++ (run ++ post))).drop (l0 :: lits).length = run ++ post :=
      List.drop_left (l0 :: lits) (run ++ post)
    have hlen : n ≤ ((run ++ post).takeWhile isWordDash).length := by
      refine le_trans hn ?_
      rw [takeWhile_append_all isWordDash run post hw]
      simp
    simp only [List.nil_append, List.append_assoc, List.cons_append]
    rw [searchLit_cons]
    simp [hpre, hd, hlen]
  | cons p pre ih =>
    simp only [List.append_assoc, List.cons_append] at ih ⊢
    rw [searchLit_cons]
    by_cases hp :
        isPre (l0 :: lits) (p :: (pre ++ (l0 :: (lits ++ (run ++ post))))) = true
    · rw [if_pos hp]
      by_cases h2 : n ≤ (((p :: (pre ++ (l0 :: (lits ++ (run ++ post))))).drop
          (l0 :: lits).length).takeWhile isWordDash).length
      · rw [if_pos h2]; rfl
      · rw [if_neg h2]; exact ih
    · rw [if_neg hp]; exact ih

theorem searchLit_ne_none_of_shape {l0 : Char} {lits : List Char} {n : Nat}
    {cs : List Char} (hs : hasShape (l0 :: lits) n cs) :
    searchLit (l0 :: lits) n cs ≠ none := by
  obtain ⟨pre, run, post, e, hn, hw⟩ := hs
  subst e
  have := searchLit_isSome_of_shape l0 lits n pre run post hn hw
  intro hnone
  rw [hnone] at this
  simp at this

theorem dedupFS_mem {α : Type} [DecidableEq α] {xs : List α} :
    ∀ {seen : List α} {y : α}, y ∈ dedupFS seen xs → y ∈ xs := by
  induction xs with
  | nil => intro seen y h; simp [dedupFS] at h
  | cons x xs ih =>
    intro seen y h
    by_cases hx : x ∈ seen
    · simp only [dedupFS, if_pos hx] at h
      exact List.mem_cons_of_mem _ (ih h)
    · simp only [dedupFS, if_neg hx] at h
      rcases List.mem_cons.mp h with rfl | h'
      · exact List.mem_cons_self _ _
      · exact List.mem_cons_of_mem _ (ih h')

theorem dedupFS_nodup_aux {α : Type} [DecidableEq α] (xs : List α) :
    ∀ seen : List α,
      (dedupFS seen xs).Nodup ∧ ∀ y ∈ dedupFS seen xs, y ∉ seen := by
  induction xs with
  | nil =>
    intro seen
    exact ⟨List.nodup_nil, fun y h => by simp [dedupFS] at h⟩
  | cons x xs ih =>
    intro seen
    by_cases hx : x ∈ seen
    · simp only [dedupFS, if_pos hx]
      exact ih seen
    · simp only [dedupFS, if_neg hx]
      obtain ⟨hnd, hni⟩ := ih (x :: seen)
      refine ⟨List.nodup_cons.mpr ⟨fun hmem => ?_, hnd⟩, ?_⟩
      · exact (hni x hmem) (List.mem_cons_self x seen)
      · intro y hy
        rcases List.mem_cons.mp hy with rfl | hy'
        · exact hx
        · exact fun hys => (hni y hy') (List.mem_cons_of_mem _ hys)

theorem extractLinksL_nodup (html : List Char) : (extractLinksL html).Nodup :=
  List.Sublist.nodup (List.take_sublist 3 _) (dedupFS_nodup_aux _ []).1

theorem extractLinksL_length_le (html : List Char) :
    (extractLinksL html).length ≤ 3 :=
  List.length_take_le 3 _

theorem stringMk_injective : Function.Injective (fun l : List Char => String.mk l) :=
  fun _ _ h => congrArg String.data h

theorem extractLinks_nodup (html : String) : (extractLinks html).Nodup :=
  List.Nodup.map stringMk_injective (extractLinksL_nodup html.data)

theorem extractLinks_length_le (html : String) : (extractLinks html).length ≤ 3 := by
  rw [extractLinks, List.length_map]
  exact extractLinksL_length_le html.data

theorem extractLinksL_kept_yt {html l : List Char} (h : l ∈ extractLinksL html) :
    isYtLink l = true := by
  have h1 : l ∈ dedupFS []
      (((findAllHrefs html).map unescapeSlash).filter isYtLink) :=
    (List.take_sublist 3 _).subset h
  exact (List.mem_filter.mp (dedupFS_mem h1)).2

theorem dropWhile_append_all {α : Type} (p : α → Bool) (run post : List α)
    (h : ∀ c ∈ run, p c = true) :
    (run ++ post).dropWhile p = post.dropWhile p := by
  induction run with
  | nil => rfl
  | cons a as ih =>
    have ha := h a (List.mem_cons_self a as)
    rw [List.cons_append, List.dropWhile_cons, if_pos ha]
    exact ih (fun c hc => h c (List.mem_cons_of_mem _ hc))

theorem matchHrefAt_ne_h {c : Char} (cs : List Char) (hc : c ≠ 'h') :
    matchHrefAt (c :: cs) = none := by
  have e : "href=\"http".data = 'h' :: "ref=\"http".data := rfl
  have h0 : stripLit "href=\"http".data (c :: cs) = none := by
    rw [e]
    simp only [stripLit]
    rw [if_neg (fun e2 => hc e2.symm)]
  simp [matchHrefAt, h0]

theorem findAllAux_cons (f : Nat) (c : Char) (cs : List Char) :
    findAllAux (f + 1) (c :: cs) =
      match matchHrefAt (c :: cs) with
      | some (cap, rest) => cap :: findAllAux f rest
      | none => findAllAux f cs := rfl

theorem findAllAux_skip (sep : List Char) (h : 'h' ∉ sep) :
    ∀ (X : List Char) (fuel : Nat),
      findAllAux (sep.length + fuel) (sep ++ X) = findAllAux fuel X := by
  induction sep with
  | nil =>
    intro X fuel
    simp
  | cons a as ih =>
    intro X fuel
    have ha : a ≠ 'h' := fun e => h (by simp [e])
    have e : (a :: as).length + fuel = (as.length + fuel) + 1 := by
      simp [List.length_cons]
      omega
    rw [e, List.cons_append, findAllAux_cons, matchHrefAt_ne_h _ ha]
    exact ih (fun hm => h (List.mem_cons_of_mem _ hm)) X fuel

theorem findAllAux_no_h (s : List Char) (h : 'h' ∉ s) :
    ∀ fuel, findAllAux fuel s = [] := by
  induction s with
  | nil => intro fuel; cases fuel <;> rfl
  | cons a as ih =>
    intro fuel
    cases fuel with
    | zero => rfl
    | succ f =>
      have ha : a ≠ 'h' := fun e => h (by simp [e])
      rw [findAllAux_cons, matchHrefAt_ne_h _ ha]
      exact ih (fun hm => h (List.mem_cons_of_mem _ hm)) f

theorem matchHrefAt_block {cap : List Char} (rest : List Char)
    (h : goodCap cap) : matchHrefAt (hrefBlock cap ++ rest) = some (cap, rest) := by
  obtain ⟨sOpt, body, hs, hb, hq, rfl⟩ := h
  cases body with
  | nil => exact absurd rfl hb
  | cons b bs =>
    have hmem : ∀ c ∈ b :: bs, (fun c => decide (c ≠ '"')) c = true :=
      fun c hc => decide_eq_true (hq c hc)
    have e_run : ((b :: bs) ++ '"' :: rest).takeWhile
        (fun c => decide (c ≠ '"')) = b :: bs := by
      rw [takeWhile_append_all _ _ _ hmem]
      simp [List.takeWhile_cons]
    have e_drop : ((b :: bs) ++ '"' :: rest).dropWhile
        (fun c => decide (c ≠ '"')) = '"' :: rest := by
      rw [dropWhile_append_all _ _ _ hmem]
      simp [List.dropWhile_cons]
    have e_assoc : (((b :: bs) ++ ['"']) ++ rest) = (b :: bs) ++ '"' :: rest :=
      List.append_assoc (b :: bs) ['"'] rest
    rcases hs with rfl | rfl
    · have e1 : hrefBlock ('h' :: 't' :: 't' :: 'p' ::
          ([] ++ (':' :: '\\' :: '/' :: '\\' :: '/' :: (b :: bs)))) ++ rest =
          'h' :: 'r' :: 'e' :: 'f' :: '=' :: '"' :: 'h' :: 't' :: 't' :: 'p' ::
          ':' :: '\\' :: '/' :: '\\' :: '/' :: (((b :: bs) ++ ['"']) ++ rest) := rfl
      have c1 : stripLit "href=\"http".data
          ('h' :: 'r' :: 'e' :: 'f' :: '=' :: '"' :: 'h' :: 't' :: 't' :: 'p' ::
            ':' :: '\\' :: '/' :: '\\' :: '/' :: ((b :: bs) ++ '"' :: rest)) =
          some (':' :: '\\' :: '/' :: '\\' :: '/' :: ((b :: bs) ++ '"' :: rest)) := rfl
      rw [e1, e_assoc]
      simp only [matchHrefAt, c1]
      have hcond : ¬ ((':' :: '\\' :: '/' :: '\\' :: '/' ::
          ((b :: bs) ++ '"' :: rest)).head? = some 's') := by
        intro hh
        rw [List.head?_cons] at hh
        exact absurd (Option.some.inj hh) (by decide)
      rw [if_neg hcond]
      have c2 : stripLit (([] : List Char) ++ ":\\/\\/".data)
          (':' :: '\\' :: '/' :: '\\' :: '/' :: ((b :: bs) ++ '"' :: rest)) =
          some ((b :: bs) ++ '"' :: rest) := rfl
      rw [c2]
      simp only [e_run, e_drop]
      rw [if_neg (by simp : ¬ (b :: bs).isEmpty = true)]
      rfl
    · have e1 : hrefBlock ('h' :: 't' :: 't' :: 'p' ::
          (['s'] ++ (':' :: '\\' :: '/' :: '\\' :: '/' :: (b :: bs)))) ++ rest =
          'h' :: 'r' :: 'e' :: 'f' :: '=' :: '"' :: 'h' :: 't' :: 't' :: 'p' ::
          's' :: ':' :: '\\' :: '/' :: '\\' :: '/' :: (((b :: bs) ++ ['"']) ++ rest) := rfl
      have c1 : stripLit "href=\"http".data
          ('h' :: 'r' :: 'e' :: 'f' :: '=' :: '"' :: 'h' :: 't' :: 't' :: 'p' ::
            's' :: ':' :: '\\' :: '/' :: '\\' :: '/' :: ((b :: bs) ++ '"' :: rest)) =
          some ('s' :: ':' :: '\\' :: '/' :: '\\' :: '/' :: ((b :: bs) ++ '"' :: rest)) := rfl
      rw [e1, e_assoc]
      simp only [matchHrefAt, c1]
      rw [if_pos (List.head?_cons :
        ('s' :: ':' :: '\\' :: '/' :: '\\' :: '/' ::
            ((b :: bs) ++ '"' :: rest)).head? = some 's')]
      have c2 : stripLit ((['s'] : List Char) ++ ":\\/\\/".data)
          ('s' :: ':' :: '\\' :: '/' :: '\\' :: '/' :: ((b :: bs) ++ '"' :: rest)) =
          some ((b :: bs) ++ '"' :: rest) := rfl
      rw [c2]
      simp only [e_run, e_drop]
      rw [if_neg (by simp : ¬ (b :: bs).isEmpty = true)]
      rfl

theorem findAllAux_hrefText :
    ∀ (pairs : List (List Char × List Char)) (tail : List Char) (fuel : Nat),
      (∀ x ∈ pairs, 'h' ∉ x.1 ∧ goodCap x.2) → 'h' ∉ tail →
      (hrefText pairs tail).length ≤ fuel →
      findAllAux fuel (hrefText pairs tail) = pairs.map (fun x => x.2) := by
  intro pairs
  induction pairs with
  | nil =>
    intro tail fuel _ ht _
    exact findAllAux_no_h tail ht fuel
  | cons x rest ih =>
    intro tail fuel hp ht hf
    obtain ⟨sep, cap⟩ := x
    obtain ⟨hsep, hcap⟩ := hp (sep, cap) (List.mem_cons_self _ _)
    have hlen : (hrefText ((sep, cap) :: rest) tail).length =
        sep.length + (hrefBlock cap ++ hrefText rest tail).length := by
      simp [hrefText, List.length_append]
    have hf1 : sep.length ≤ fuel := by omega
    have e : fuel = sep.length + (fuel - sep.length) := by omega
    have hb2 : (hrefBlock cap ++ hrefText rest tail).length ≤ fuel - sep.length := by
      omega
    have hblen : 1 ≤ (hrefBlock cap).length := by
      simp [hrefBlock]
    obtain ⟨f2, hf2⟩ : ∃ f2, fuel - sep.length = f2 + 1 := by
      refine ⟨fuel - sep.length - 1, ?_⟩
      rw [List.length_append] at hb2
      omega
    show findAllAux fuel (sep ++ (hrefBlock cap ++ hrefText rest tail)) =
      cap :: rest.map (fun x => x.2)
    rw [e, findAllAux_skip sep hsep, hf2]
    have eb : hrefBlock cap ++ hrefText rest tail =
        'h' :: 'r' :: 'e' :: 'f' :: '=' :: '"' ::
          ((cap ++ ['"']) ++ hrefText rest tail) := rfl
    rw [eb, findAllAux_cons]
    have em : matchHrefAt ('h' :: 'r' :: 'e' :: 'f' :: '=' :: '"' ::
        ((cap ++ ['"']) ++ hrefText rest tail)) =
        some (cap, hrefText rest tail) :=
      matchHrefAt_block (hrefText rest tail) hcap
    rw [em]
    refine congrArg (fun l => cap :: l) ?_
    refine ih tail f2 (fun y hy => hp y (List.mem_cons_of_mem _ hy)) ht ?_
    rw [List.length_append] at hb2
    omega

theorem findAllHrefs_hrefText (pairs : List (List Char × List Char))
    (tail : List Char) (hp : ∀ x ∈ pairs, 'h' ∉ x.1 ∧ goodCap x.2)
    (ht : 'h' ∉ tail) :
    findAllHrefs (hrefText pairs tail) = pairs.map (fun x => x.2) :=
  findAllAux_hrefText pairs tail _ hp ht (le_refl _)

theorem extractLinksL_hrefText (pairs : List (List Char × List Char))
    (tail : List Char) (hp : ∀ x ∈ pairs, 'h' ∉ x.1 ∧ goodCap x.2)
    (ht : 'h' ∉ tail) :
    extractLinksL (hrefText pairs tail) =
      (dedupFS [] (((pairs.map (fun x => x.2)).map unescapeSlash).filter
        isYtLink)).take 3 := by
  unfold extractLinksL
  rw [findAllHrefs_hrefText pairs tail hp ht]

/-! ## Claim theorems -/

/-- C4: for every input text, LinkExtractor returns at most 3 links and no
duplicate strings, and the dedup stage keeps the first occurrence of each
link in order: hrefs `[A, B, A, C]` dedup to `[A, B, C]`. -/
theorem claimC4 :
    (∀ html : String,
      (extractLinks html).length ≤ 3 ∧ (extractLinks html).Nodup)
    ∧ (∀ A B C : String, A ≠ B → A ≠ C → B ≠ C →
        dedupFS [] [A, B, A, C] = [A, B, C]) := by
  constructor
  · intro html
    exact ⟨extractLinks_length_le html, extractLinks_nodup html⟩
  · intro A B C hAB hAC hBC
    simp [dedupFS, Ne.symm hAB, Ne.symm hAC, Ne.symm hBC]

/-- Witness for C4 at concrete links. -/
theorem claimC4_witness :
    dedupFS [] ["a", "b", "a", "c"] = ["a", "b", "c"] :=
  claimC4.2 "a" "b" "c" (by decide) (by decide) (by decide)

/-- C6: a URL containing none of the three accepted shapes — no `youtu.be/`,
`v=` or `/embed/` literal followed by a token of 6 or more word/dash
characters — yields no video identifier.  (The embedding is a total
function, so no exception can be raised.) -/
theorem claimC6 (u : List Char) (h1 : ¬ hasShape ytShortLit 6 u)
    (h2 : ¬ hasShape vParamLit 6 u) (h3 : ¬ hasShape embedLit 6 u) :
    extractIdL u = none := by
  have e1 : searchLit ytShortLit 6 u = none := by
    cases hb : searchLit ytShortLit 6 u with
    | none => rfl
    | some r => exact absurd (hasShape_of_searchLit hb) h1
  have e2 : searchLit vParamLit 6 u = none := by
    cases hb : searchLit vParamLit 6 u with
    | none => rfl
    | some r => exact absurd (hasShape_of_searchLit hb) h2
  have e3 : searchLit embedLit 6 u = none := by
    cases hb : searchLit embedLit 6 u with
    | none => rfl
    | some r => exact absurd (hasShape_of_searchLit hb) h3
  simp [extractIdL, e1, e2, e3]

/-- Witness for C6 at a URL with no accepted shape. -/
theorem claimC6_witness : extractIdL "https://example.com/page".data = none :=
  claimC6 "https://example.com/page".data
    (fun hs => searchLit_ne_none_of_shape hs (by decide))
    (fun hs => searchLit_ne_none_of_shape hs (by decide))
    (fun hs => searchLit_ne_none_of_shape hs (by decide))

/-- C7: each word/dash token of length at least 6 is extracted identically
from the three URL shapes that wrap it. -/
theorem claimC7 (t : List Char) (h6 : 6 ≤ t.length)
    (hw : ∀ c ∈ t, isWordDash c = true) :
    extractIdL ("https://youtu.be/".data ++ t) = some t ∧
    extractIdL ("https://youtube.com/watch?v=".data ++ t) = some t ∧
    extractIdL ("https://x/embed/".data ++ t) = some t := by
  have e1 : searchLit ytShortLit 6 ("https://youtu.be/".data ++ t) = some t :=
    Eq.trans
      (searchLit_skip 'y' "outu.be/".data 6 "https://".data (ytShortLit ++ t)
        (by decide))
      (searchLit_found 'y' "outu.be/".data t 6 hw h6)
  have e2a : searchLit ytShortLit 6
      ("https://youtube.com/watch?v=".data ++ t) = none := by
    have s1 := searchLit_skip 'y' "outu.be/".data 6 "https://".data
      ("youtube.com/watch?v=".data ++ t) (by decide)
    have s2 := searchLit_step 6
      (show isPre ('y' :: "outu.be/".data)
        ('y' :: ("outube.com/watch?v=".data ++ t)) = false from rfl)
    have s3 := searchLit_skip 'y' "outu.be/".data 6
      "outube.com/watch?v=".data t (by decide)
    have s4 : searchLit ytShortLit 6 t = none :=
      searchLit_none_of_allWord 6 hw ⟨'.', by decide, by decide⟩
    exact Eq.trans s1 (Eq.trans s2 (Eq.trans s3 s4))
  have e2b : searchLit vParamLit 6
      ("https://youtube.com/watch?v=".data ++ t) = some t :=
    Eq.trans
      (searchLit_skip 'v' "=".data 6 "https://youtube.com/watch?".data
        (vParamLit ++ t) (by decide))
      (searchLit_found 'v' "=".data t 6 hw h6)
  have e3a : searchLit ytShortLit 6 ("https://x/embed/".data ++ t) = none :=
    Eq.trans
      (searchLit_skip 'y' "outu.be/".data 6 "https://x/embed/".data t
        (by decide))
      (searchLit_none_of_allWord 6 hw ⟨'.', by decide, by decide⟩)
  have e3b : searchLit vParamLit 6 ("https://x/embed/".data ++ t) = none :=
    Eq.trans
      (searchLit_skip 'v' "=".data 6 "https://x/embed/".data t (by decide))
      (searchLit_none_of_allWord 6 hw ⟨'=', by decide, by decide⟩)
  have e3c : searchLit embedLit 6 ("https://x/embed/".data ++ t) = some t := by
    have s1 := searchLit_skip '/' "embed/".data 6 "https:".data
      ("//x/embed/".data ++ t) (by decide)
    have s2 := searchLit_step 6
      (show isPre ('/' :: "embed/".data)
        ('/' :: ("/x/embed/".data ++ t)) = false from rfl)
    have s3 := searchLit_step 6
      (show isPre ('/' :: "embed/".data)
        ('/' :: ("x/embed/".data ++ t)) = false from rfl)
    have s4 := searchLit_skip '/' "embed/".data 6 "x".data
      ("/embed/".data ++ t) (by decide)
    have s5 := searchLit_found '/' "embed/".data t 6 hw h6
    exact Eq.trans s1 (Eq.trans s2 (Eq.trans s3 (Eq.trans s4 s5)))
  refine ⟨?_, ?_, ?_⟩
  · unfold extractIdL
    rw [e1]
  · unfold extractIdL
    rw [e2a, e2b]
  · unfold extractIdL
    rw [e3a, e3b, e3c]

/-- Witness for C7 at the token `abcdef1`. -/
theorem claimC7_witness :
    extractIdL ("https://youtu.be/".data ++ "abcdef1".data)
      = some "abcdef1".data ∧
    extractIdL ("https://youtube.com/watch?v=".data ++ "abcdef1".data)
      = some "abcdef1".data ∧
    extractIdL ("https://x/embed/".data ++ "abcdef1".data)
      = some "abcdef1".data :=
  claimC7 "abcdef1".data (by decide) (by decide)

/-- C8: with a missing API credential or a missing video identifier, the
resolver returns no data and performs zero outbound API calls. -/
theorem claimC8 (apiKey : Option String) (vid : Option String)
    (api : String → ApiResult) (h : apiKey = none ∨ vid = none) :
    resolveMetadata apiKey vid api = (none, 0) := by
  cases vid with
  | none => rfl
  | some v =>
    rcases h with h | h
    · subst h; rfl
    · exact absurd h (by simp)

/-- Witness for C8 with a present identifier but no credential. -/
theorem claimC8_witness :
    resolveMetadata none (some "abcdef1") apiDown = (none, 0) :=
  claimC8 none (some "abcdef1") apiDown (Or.inl rfl)

/-- C9: the single-URL endpoint rejects a URL with no derivable identifier
with a 400 client error and produces no item. -/
theorem claimC9 (apiKey : Option String) (api : String → ApiResult)
    (url : String) (ret : Option Rat) (now : Nat)
    (h : extract_youtube_id url = none) :
    refresh_metrics apiKey api url ret now = .error 400 := by
  simp [refresh_metrics, h]

/-- Witness for C9 at a URL with no identifier. -/
theorem claimC9_witness :
    refresh_metrics (some "key") apiDown "https://example.com/page" (some 10) 4
      = .error 400 :=
  claimC9 (some "key") apiDown "https://example.com/page" (some 10) 4 (by decide)

/-- C10: whenever an identifier is derivable from the URL, the single-URL
endpoint succeeds and passes the manual retention percentage through
unchanged into `avg_retention`, whatever the enrichment outcome. -/
theorem claimC10 (apiKey : Option String) (api : String → ApiResult)
    (url : String) (ret : Option Rat) (now : Nat) (vid : String)
    (h : extract_youtube_id url = some vid) :
    (refresh_metrics apiKey api url ret now).toOption.map
      (fun w => w.metrics.avg_retention) = some ret := by
  simp [refresh_metrics, h, Except.toOption]

/-- Witness for C10 with failed enrichment and manual retention 55. -/
theorem claimC10_witness :
    (refresh_metrics none apiDown "https://youtu.be/abcdef1" (some 55) 9).toOption.map
      (fun w => w.metrics.avg_retention) = some (some 55) :=
  claimC10 none apiDown "https://youtu.be/abcdef1" (some 55) 9 "abcdef1" (by decide)

/-- C1 counterexample: in the fallback the claim asserts null metrics with no
metric field set, but the placeholders set `last_updated` to the assembly
time (`7` here), so their metrics differ from the all-null record. -/
theorem claimC1_counterexample :
    ((notion_best_work "p" none none apiDown 7 acceptAll).map
      fun w => w.metrics.last_updated) = [some 7, some 7, some 7] ∧
    (some 7 : Option Nat) ≠ none ∧
    (notion_best_work "p" none none apiDown 7 acceptAll).map (fun w => w.metrics)
      ≠ [⟨none, none, none, none⟩, ⟨none, none, none, none⟩,
         ⟨none, none, none, none⟩] := by
  refine ⟨rfl, by decide, by decide⟩

/-- C1 (amended): on fetch failure or an empty extracted-link list, the
pipeline returns exactly the 3 placeholders, each referencing the page URL
with the fixed outcome note, all metric fields null except `last_updated`,
which is set to the assembly time (for every schema validator, since no item
is constructed on these paths). -/
theorem claimC1 (pageUrl : String) (apiKey : Option String)
    (fetched : Option String) (api : String → ApiResult) (now : Nat)
    (schemaOk : WorkItem → Bool)
    (h : fetched = none ∨ ∃ html, fetched = some html ∧ extractLinks html = []) :
    notion_best_work pageUrl apiKey fetched api now schemaOk
      = fallbackItems pageUrl now ∧
    (fallbackItems pageUrl now).length = 3 ∧
    ∀ w ∈ fallbackItems pageUrl now,
      w.youtube_url = some pageUrl ∧ w.outcome = some "N/A — add manually" ∧
      w.metrics.views = none ∧ w.metrics.avg_retention = none ∧
      w.metrics.upload_date = none ∧ w.metrics.last_updated = some now := by
  refine ⟨?_, rfl, ?_⟩
  · rcases h with h | ⟨html, hf, he⟩
    · subst h; rfl
    · subst hf
      simp [notion_best_work, he]
  · intro w hw
    simp only [fallbackItems, List.mem_cons, List.not_mem_nil, or_false] at hw
    rcases hw with rfl | rfl | rfl <;> exact ⟨rfl, rfl, rfl, rfl, rfl, rfl⟩

/-- Witness for C1 at a failed fetch. -/
theorem claimC1_witness :
    notion_best_work "p" (some "key") none apiDown 7 rejectBadPort
      = fallbackItems "p" 7 :=
  (claimC1 "p" (some "key") none apiDown 7 rejectBadPort (Or.inl rfl)).1

/-- C2 counterexample: a plain, unescaped
`href="https://www.youtube.com/watch?v=abcdefg"` is not matched by the
extraction regex (which requires `https:\/\/`), so the claim's "in
particular" instance fails: nothing is matched and nothing is returned. -/
theorem claimC2_counterexample :
    findAllHrefs plainHtml.data = [] ∧ extractLinks plainHtml = [] := by
  refine ⟨rfl, rfl⟩

/-- C2 (amended): in every text interleaving `h`-free fragments with
backslash-escaped href blocks, the matcher finds exactly the escaped href
values in first-occurrence order, and the extractor output is exactly those
captures unescaped, filtered to the platform shapes, deduplicated and capped
at 3; in every text whatsoever, each kept link contains a platform shape; a
plain unescaped href is not matched, while the escaped form is matched and
returned with the escaping undone. -/
theorem claimC2 :
    (∀ (pairs : List (List Char × List Char)) (tail : List Char),
      (∀ x ∈ pairs, 'h' ∉ x.1 ∧ goodCap x.2) → 'h' ∉ tail →
      findAllHrefs (hrefText pairs tail) = pairs.map (fun x => x.2) ∧
      extractLinksL (hrefText pairs tail) =
        (dedupFS [] (((pairs.map (fun x => x.2)).map unescapeSlash).filter
          isYtLink)).take 3)
    ∧ (∀ html l : List Char, l ∈ extractLinksL html → isYtLink l = true)
    ∧ extractLinks plainHtml = []
    ∧ extractLinks escapedHtml = ["https://www.youtube.com/watch?v=abcdefg"] := by
  refine ⟨?_, ?_, rfl, rfl⟩
  · intro pairs tail hp ht
    exact ⟨findAllHrefs_hrefText pairs tail hp ht,
           extractLinksL_hrefText pairs tail hp ht⟩
  · intro html l hl
    exact extractLinksL_kept_yt hl

/-- Witness for C2: completeness at a one-block page around `watchCap`, with
the hypotheses discharged concretely. -/
theorem claimC2_witness :
    findAllHrefs (hrefText [("<a ".data, watchCap)] ">x</a>".data)
      = [watchCap] ∧
    extractLinksL (hrefText [("<a ".data, watchCap)] ">x</a>".data) =
      (dedupFS [] ((([watchCap].map unescapeSlash).filter isYtLink))).take 3 :=
  claimC2.1 [("<a ".data, watchCap)] ">x</a>".data
    (fun x hx => by
      have hx1 : x = ("<a ".data, watchCap) := by
        simpa using hx
      subst hx1
      refine ⟨by decide, ['s'], "www.youtube.com\\/watch?v=abcdefg".data,
        Or.inr rfl, by decide, by decide, rfl⟩)
    (by decide)

/-- C3 counterexample: the page `badPortHtml` yields the non-empty extracted
list `["https://x:999999/?youtu.be/"]` (the link contains `youtu.be/`), yet
because pydantic rejects the out-of-range port when the `WorkItem` is
constructed, the handler's blanket `except` returns the 3-placeholder
fallback — so a non-empty link list does not guarantee one item per link. -/
theorem claimC3_counterexample :
    extractLinks badPortHtml = ["https://x:999999/?youtu.be/"] ∧
    notion_best_work "p" none (some badPortHtml) apiDown 0 rejectBadPort
      = fallbackItems "p" 0 := by
  refine ⟨rfl, rfl⟩

/-- C3 (amended): whenever the extracted link list is non-empty and every
assembled item passes schema validation, the pipeline returns exactly one
item per extracted link — never the fallback — even if every item lacks
enrichment; if any assembled item fails validation, the blanket `except`
returns the 3-placeholder fallback instead; concretely, two valid links with
one enrichment success and one failure yield exactly two items, one fully
enriched and one with only `last_updated` set. -/
theorem claimC3 :
    (∀ (p : String) (k : Option String) (html : String)
        (api : String → ApiResult) (now : Nat) (schemaOk : WorkItem → Bool),
      extractLinks html ≠ [] →
      ((extractLinks html).map (fun l =>
        assembleItem l (resolveMetadata k (extract_youtube_id l) api).1 now)).all
          schemaOk = true →
      notion_best_work p k (some html) api now schemaOk =
        (extractLinks html).map (fun l =>
          assembleItem l (resolveMetadata k (extract_youtube_id l) api).1 now) ∧
      (notion_best_work p k (some html) api now schemaOk).length
        = (extractLinks html).length)
    ∧ (∀ (p : String) (k : Option String) (html : String)
        (api : String → ApiResult) (now : Nat) (schemaOk : WorkItem → Bool),
      ((extractLinks html).map (fun l =>
        assembleItem l (resolveMetadata k (extract_youtube_id l) api).1 now)).all
          schemaOk = false →
      notion_best_work p k (some html) api now schemaOk
        = fallbackItems p now)
    ∧ notion_best_work "p" (some "key") (some pairHtml) pairApi 5 acceptAll =
        [ { title := some "Title One", channel := some "Channel One",
            youtube_url := some "https://www.youtube.com/watch?v=abcdef1",
            thumbnail_url := some "https://img/1.jpg", outcome := none,
            metrics := ⟨some 12345, none, some "2024-01-01T00:00:00Z", some 5⟩ },
          { title := some "YouTube Video", channel := none,
            youtube_url := some "https://youtu.be/ghijkl2",
            thumbnail_url := none, outcome := none,
            metrics := ⟨none, none, none, some 5⟩ } ] := by
  refine ⟨?_, ?_, rfl⟩
  · intro p k html api now schemaOk hne hall
    have hemp : ((extractLinks html).map (fun l =>
        assembleItem l (resolveMetadata k (extract_youtube_id l) api).1 now)).isEmpty
        = false := by
      rw [List.isEmpty_eq_false]
      simp [hne]
    constructor
    · simp [notion_best_work, hall, hemp]
    · simp [notion_best_work, hall, hemp]
  · intro p k html api now schemaOk hall
    simp [notion_best_work, hall]

/-- Witness for C3 at the two-link page with an all-accepting validator. -/
theorem claimC3_witness :
    notion_best_work "q" none (some pairHtml) apiDown 3 acceptAll =
      (extractLinks pairHtml).map (fun l =>
        assembleItem l (resolveMetadata none (extract_youtube_id l) apiDown).1 3) :=
  (claimC3.1 "q" none pairHtml apiDown 3 acceptAll (by decide) (by decide)).1

/-- C5 counterexample: the API answers with one item whose snippet fields are
all present but whose `viewCount` is the non-numeric `"12abc"`; the claim
says the other mapped fields are still returned with a null views field, but
`int()` raises inside the handler's `try` and the whole resolver returns
`none`. -/
theorem claimC5_counterexample :
    (get_youtube_details (some "key") "vid" nonNumericApi).1 = none ∧
    nonNumericApi "vid"
      = .ok ⟨[⟨⟨some "T", some "C", some "U", some "D"⟩, ⟨some "12abc"⟩⟩]⟩ ∧
    (none : Option Details)
      ≠ some ⟨some "T", some "C", some "U", some "D", none⟩ := by
  refine ⟨rfl, rfl, by decide⟩

/-- C5 (amended): on a successful API response with at least one item the
resolver maps the first item's snippet/statistics fields; an absent (or
empty) view count yields a null views field with the other fields returned;
a present non-numeric view count makes the whole resolver return no data;
a numeric one is parsed into the views field. -/
theorem claimC5 :
    (∀ (k vid : String) (api : String → ApiResult) (item : ApiItem)
        (rest : List ApiItem),
      api vid = .ok ⟨item :: rest⟩ → item.statistics.viewCount = none →
      (get_youtube_details (some k) vid api).1 =
        some ⟨item.snippet.title, item.snippet.channelTitle,
              item.snippet.thumbHighUrl, item.snippet.publishedAt, none⟩)
    ∧ (∀ (k vid : String) (api : String → ApiResult) (item : ApiItem)
        (rest : List ApiItem),
      api vid = .ok ⟨item :: rest⟩ → item.statistics.viewCount = some "" →
      (get_youtube_details (some k) vid api).1 =
        some ⟨item.snippet.title, item.snippet.channelTitle,
              item.snippet.thumbHighUrl, item.snippet.publishedAt, none⟩)
    ∧ (∀ (k vid : String) (api : String → ApiResult) (item : ApiItem)
        (rest : List ApiItem) (s : String),
      api vid = .ok ⟨item :: rest⟩ → item.statistics.viewCount = some s →
      s ≠ "" → pyInt s.data = none →
      (get_youtube_details (some k) vid api).1 = none)
    ∧ (∀ (k vid : String) (api : String → ApiResult) (item : ApiItem)
        (rest : List ApiItem) (s : String) (v : Int),
      api vid = .ok ⟨item :: rest⟩ → item.statistics.viewCount = some s →
      s ≠ "" → pyInt s.data = some v →
      (get_youtube_details (some k) vid api).1 =
        some ⟨item.snippet.title, item.snippet.channelTitle,
              item.snippet.thumbHighUrl, item.snippet.publishedAt, some v⟩) := by
  refine ⟨?_, ?_, ?_, ?_⟩
  · intro k vid api item rest hresp hvc
    simp [get_youtube_details, hresp, hvc]
  · intro k vid api item rest hresp hvc
    simp [get_youtube_details, hresp, hvc]
  · intro k vid api item rest s hresp hvc hne hpy
    simp [get_youtube_details, hresp, hvc, hne, hpy]
  · intro k vid api item rest s v hresp hvc hne hpy
    simp [get_youtube_details, hresp, hvc, hne, hpy]

/-- Witness for C5: the absent-view-count case at a concrete response. -/
theorem claimC5_witness :
    (get_youtube_details (some "key") "vid" viewlessApi).1 =
      some ⟨some "T2", some "C2", some "U2", some "D2", none⟩ :=
  claimC5.1 "key" "vid" viewlessApi
    ⟨⟨some "T2", some "C2", some "U2", some "D2"⟩, ⟨none⟩⟩ [] rfl rfl

end Scriptwriter
